import Mathlib

/-!
Verification development for the mcpdevmcp repository: an MCP server that
wraps the MCP Inspector CLI.  The definitions below are a shallow embedding
of the TypeScript sources (src/types.ts, src/utils/result.ts,
src/services/inspector-cli.ts, src/tools/inspector.ts); the theorems settle
the specification claims against them.
-/

namespace Mcpdev

/-- Error kinds of the Inspector CLI pipeline, from src/types.ts
(type InspectorErrorKind, a closed union of six string literals). -/
inductive InspectorErrorKind where
  | SPAWN_FAILED
  | EXECUTION_FAILED
  | PARSE_FAILED
  | TIMEOUT
  | INVALID_RESPONSE
  | CONNECTION_FAILED
  deriving DecidableEq, Repr

/-- String literal carried by each member of InspectorErrorKind; in the
TypeScript source the kind is itself this string. -/
def kindString : InspectorErrorKind → String
  | .SPAWN_FAILED => "SPAWN_FAILED"
  | .EXECUTION_FAILED => "EXECUTION_FAILED"
  | .PARSE_FAILED => "PARSE_FAILED"
  | .TIMEOUT => "TIMEOUT"
  | .INVALID_RESPONSE => "INVALID_RESPONSE"
  | .CONNECTION_FAILED => "CONNECTION_FAILED"

/-- Typed failure record, from src/types.ts (interface InspectorError).
The optional details field is modelled as an Option. -/
structure InspectorError where
  kind : InspectorErrorKind
  message : String
  details : Option String
  deriving DecidableEq, Repr

/-- Constructor helper, from src/utils/result.ts (function inspectorError). -/
def inspectorError (kind : InspectorErrorKind) (message : String)
    (details : Option String) : InspectorError :=
  { kind := kind, message := message, details := details }

/-- Rendering of a typed failure, from src/utils/result.ts (function
formatError).  The source guards the Details line with the JavaScript
truthiness test `if (error.details)`, which skips the line both when the
field is absent and when it is the empty string. -/
def formatError (e : InspectorError) : String :=
  let message := "Error [" ++ kindString e.kind ++ "]: " ++ e.message
  match e.details with
  | some d => if d = "" then message else message ++ "\nDetails: " ++ d
  | none => message

/-- Transport selector, from src/types.ts (type TransportType). -/
inductive TransportType where
  | stdio
  | sse
  | http
  deriving DecidableEq, Repr

/-- String literal of each transport, as it appears in the source union. -/
def transportString : TransportType → String
  | .stdio => "stdio"
  | .sse => "sse"
  | .http => "http"

/-- Target MCP server descriptor, from src/types.ts (interface TargetServer).
The env record is modelled as an insertion-ordered association list, matching
the enumeration order of Object.entries. -/
structure TargetServer where
  target : String
  transport : Option TransportType
  env : Option (List (String × String))

/-- Modelled from the spec: JSON document values handled by the JavaScript
runtime's JSON facilities (an external collaborator of this repository).
Numbers are modelled as integers; none of the verified claims depends on
non-integral numeric payloads. -/
inductive Json where
  | null
  | bool (b : Bool)
  | num (n : Int)
  | str (s : String)
  | arr (elems : List Json)
  | obj (fields : List (String × Json))

/-- Opening-brace character, written via its code point. -/
def lbrace : Char := Char.ofNat 123

/-- Closing-brace character, written via its code point. -/
def rbrace : Char := Char.ofNat 125

/-- Lower-case hexadecimal digit for a value below 16. -/
def hexDigit (n : Nat) : String :=
  if n < 10 then toString n else String.singleton (Char.ofNat (97 + n - 10))

/-- Escape of a single character inside a JSON string literal, following
JSON.stringify. -/
def escapeJsonChar (c : Char) : String :=
  if c = Char.ofNat 34 then "\\\""
  else if c = Char.ofNat 92 then "\\\\"
  else if c = Char.ofNat 10 then "\\n"
  else if c = Char.ofNat 13 then "\\r"
  else if c = Char.ofNat 9 then "\\t"
  else if c = Char.ofNat 8 then "\\b"
  else if c = Char.ofNat 12 then "\\f"
  else if c.toNat < 32 then "\\u00" ++ hexDigit (c.toNat / 16) ++ hexDigit (c.toNat % 16)
  else String.singleton c

/-- Quoted form of a string as produced by JSON.stringify. -/
def quoteJson (s : String) : String :=
  "\"" ++ String.join (s.data.map escapeJsonChar) ++ "\""

mutual

/-- Modelled from the spec: JSON.stringify with no space argument (compact
serialization), as used for the --json blob and for non-string tool-argument
values. -/
def stringifyCompact : Json → String
  | .null => "null"
  | .bool true => "true"
  | .bool false => "false"
  | .num n => toString n
  | .str s => quoteJson s
  | .arr es => "[" ++ stringifyItems es ++ "]"
  | .obj fs => "\x7b" ++ stringifyMembers fs ++ "\x7d"

/-- Comma-separated compact serialization of array elements. -/
def stringifyItems : List Json → String
  | [] => ""
  | [e] => stringifyCompact e
  | e :: e2 :: es => stringifyCompact e ++ "," ++ stringifyItems (e2 :: es)

/-- Comma-separated compact serialization of object members. -/
def stringifyMembers : List (String × Json) → String
  | [] => ""
  | [(k, v)] => quoteJson k ++ ":" ++ stringifyCompact v
  | (k, v) :: f :: fs =>
      quoteJson k ++ ":" ++ stringifyCompact v ++ "," ++ stringifyMembers (f :: fs)

end

mutual

/-- Modelled from the spec: JSON.stringify with space argument 2 (the
pretty-printed success payload), at a given current indentation. -/
def stringifyIndent (indent : String) : Json → String
  | .arr [] => "[]"
  | .arr (e :: es) =>
      "[\n" ++ stringifyIndentItems indent (e :: es) ++ "\n" ++ indent ++ "]"
  | .obj [] => "\x7b\x7d"
  | .obj (f :: fs) =>
      "\x7b\n" ++ stringifyIndentMembers indent (f :: fs) ++ "\n" ++ indent ++ "\x7d"
  | v => stringifyCompact v

/-- Indented serialization of array elements, one per line. -/
def stringifyIndentItems (indent : String) : List Json → String
  | [] => ""
  | [e] => indent ++ "  " ++ stringifyIndent (indent ++ "  ") e
  | e :: e2 :: es =>
      indent ++ "  " ++ stringifyIndent (indent ++ "  ") e ++ ",\n" ++
        stringifyIndentItems indent (e2 :: es)

/-- Indented serialization of object members, one per line. -/
def stringifyIndentMembers (indent : String) : List (String × Json) → String
  | [] => ""
  | [(k, v)] => indent ++ "  " ++ quoteJson k ++ ": " ++ stringifyIndent (indent ++ "  ") v
  | (k, v) :: f :: fs =>
      indent ++ "  " ++ quoteJson k ++ ": " ++ stringifyIndent (indent ++ "  ") v ++ ",\n" ++
        stringifyIndentMembers indent (f :: fs)

end

/-- Two-space pretty printing of a JSON value, the form
JSON.stringify(value, null, 2) used by every tool handler on success. -/
def stringify2 (v : Json) : String := stringifyIndent "" v

/-- Value of a decimal digit character, none otherwise. -/
def digitVal (c : Char) : Option Nat :=
  if Char.ofNat 48 ≤ c ∧ c ≤ Char.ofNat 57 then some (c.toNat - 48) else none

/-- Value of a hexadecimal digit character, none otherwise. -/
def hexVal (c : Char) : Option Nat :=
  if Char.ofNat 48 ≤ c ∧ c ≤ Char.ofNat 57 then some (c.toNat - 48)
  else if Char.ofNat 97 ≤ c ∧ c ≤ Char.ofNat 102 then some (c.toNat - 87)
  else if Char.ofNat 65 ≤ c ∧ c ≤ Char.ofNat 70 then some (c.toNat - 55)
  else none

/-- Single-character JSON string escapes. -/
def escChar (c : Char) : Option Char :=
  if c = Char.ofNat 34 then some (Char.ofNat 34)
  else if c = Char.ofNat 92 then some (Char.ofNat 92)
  else if c = Char.ofNat 47 then some (Char.ofNat 47)
  else if c = 'n' then some (Char.ofNat 10)
  else if c = 'r' then some (Char.ofNat 13)
  else if c = 't' then some (Char.ofNat 9)
  else if c = 'b' then some (Char.ofNat 8)
  else if c = 'f' then some (Char.ofNat 12)
  else none

/-- Skipping of the four JSON whitespace characters. -/
def skipWs : List Char → List Char
  | c :: cs =>
      if c = ' ' ∨ c = Char.ofNat 9 ∨ c = Char.ofNat 10 ∨ c = Char.ofNat 13 then skipWs cs
      else c :: cs
  | [] => []

/-- Body of a JSON string literal after the opening quote: returns the decoded
characters and the remaining input past the closing quote. -/
def parseStrChars : List Char → Except String (List Char × List Char)
  | [] => Except.error "Unterminated string in JSON"
  | c :: rest =>
      if c = Char.ofNat 34 then Except.ok ([], rest)
      else if c = Char.ofNat 92 then
        match rest with
        | [] => Except.error "Unterminated string in JSON"
        | 'u' :: a :: b :: c2 :: d :: rest2 =>
            match hexVal a, hexVal b, hexVal c2, hexVal d with
            | some ha, some hb, some hc, some hd =>
                (parseStrChars rest2).map fun (out, rem) =>
                  (Char.ofNat (((ha * 16 + hb) * 16 + hc) * 16 + hd) :: out, rem)
            | _, _, _, _ => Except.error "Bad Unicode escape in JSON"
        | e :: rest2 =>
            match escChar e with
            | some ec => (parseStrChars rest2).map fun (out, rem) => (ec :: out, rem)
            | none => Except.error "Bad escaped character in JSON"
      else (parseStrChars rest).map fun (out, rem) => (c :: out, rem)

/-- Accumulating decimal digit reader. -/
def parseDigits : List Char → Nat → (Nat × List Char)
  | c :: cs, acc =>
      match digitVal c with
      | some d => parseDigits cs (acc * 10 + d)
      | none => (acc, c :: cs)
  | [], acc => (acc, [])

/-- Integer numeral reader: optional minus sign then at least one digit. -/
def parseNumber : List Char → Except String (Json × List Char)
  | '-' :: cs =>
      match cs with
      | c :: _ =>
          if (digitVal c).isSome then
            let (n, rest) := parseDigits cs 0
            Except.ok (Json.num (-(n : Int)), rest)
          else Except.error "Unexpected token - in JSON"
      | [] => Except.error "Unexpected token - in JSON"
  | cs =>
      match cs with
      | c :: _ =>
          if (digitVal c).isSome then
            let (n, rest) := parseDigits cs 0
            Except.ok (Json.num (n : Int), rest)
          else Except.error "Unexpected token in JSON"
      | [] => Except.error "Unexpected end of JSON input"

mutual

/-- Modelled from the spec: recursive-descent core of JSON.parse (an external
collaborator).  The fuel argument bounds nesting depth and is at least the
input length at top level, so it never runs out on real input. -/
def parseValue : Nat → List Char → Except String (Json × List Char)
  | 0, _ => Except.error "JSON nesting too deep"
  | fuel + 1, cs =>
      match skipWs cs with
      | [] => Except.error "Unexpected end of JSON input"
      | 'n' :: 'u' :: 'l' :: 'l' :: rest => Except.ok (Json.null, rest)
      | 't' :: 'r' :: 'u' :: 'e' :: rest => Except.ok (Json.bool true, rest)
      | 'f' :: 'a' :: 'l' :: 's' :: 'e' :: rest => Except.ok (Json.bool false, rest)
      | c :: rest =>
          if c = Char.ofNat 34 then
            (parseStrChars rest).map fun (out, rem) => (Json.str (String.mk out), rem)
          else if c = '[' then
            match skipWs rest with
            | ']' :: rest2 => Except.ok (Json.arr [], rest2)
            | rest2 => (parseArrayTail fuel rest2).map fun (es, rem) => (Json.arr es, rem)
          else if c = lbrace then
            match skipWs rest with
            | c2 :: rest2 =>
                if c2 = rbrace then Except.ok (Json.obj [], rest2)
                else (parseObjectTail fuel (c2 :: rest2)).map fun (fs, rem) => (Json.obj fs, rem)
            | [] => Except.error "Unexpected end of JSON input"
          else if c = '-' ∨ (digitVal c).isSome then parseNumber (c :: rest)
          else Except.error ("Unexpected token " ++ String.singleton c ++ " in JSON")

/-- Array elements after the opening bracket of a non-empty array. -/
def parseArrayTail : Nat → List Char → Except String (List Json × List Char)
  | 0, _ => Except.error "JSON nesting too deep"
  | fuel + 1, cs =>
      match parseValue fuel cs with
      | Except.error e => Except.error e
      | Except.ok (v, rest) =>
          match skipWs rest with
          | ',' :: rest2 => (parseArrayTail fuel rest2).map fun (vs, rem) => (v :: vs, rem)
          | ']' :: rest2 => Except.ok ([v], rest2)
          | _ => Except.error "Expected , or ] after array element in JSON"

/-- Object members after the opening brace of a non-empty object. -/
def parseObjectTail : Nat → List Char → Except String (List (String × Json) × List Char)
  | 0, _ => Except.error "JSON nesting too deep"
  | fuel + 1, cs =>
      match skipWs cs with
      | c :: rest =>
          if c = Char.ofNat 34 then
            match parseStrChars rest with
            | Except.error e => Except.error e
            | Except.ok (keyChars, rest2) =>
                match skipWs rest2 with
                | ':' :: rest3 =>
                    match parseValue fuel rest3 with
                    | Except.error e => Except.error e
                    | Except.ok (v, rest4) =>
                        match skipWs rest4 with
                        | ',' :: rest5 =>
                            (parseObjectTail fuel rest5).map fun (fs, rem) =>
                              ((String.mk keyChars, v) :: fs, rem)
                        | c2 :: rest5 =>
                            if c2 = rbrace then
                              Except.ok ([(String.mk keyChars, v)], rest5)
                            else Except.error "Expected , or \x7d after property value in JSON"
                        | [] => Except.error "Unexpected end of JSON input"
                | _ => Except.error "Expected : after property name in JSON"
          else Except.error "Expected string property name in JSON"
      | [] => Except.error "Unexpected end of JSON input"

end

/-- Modelled from the spec: JSON.parse of the JavaScript runtime (an external
collaborator), returning the parsed document or the parser's message. -/
def jsonParse (s : String) : Except String Json :=
  match parseValue (s.length + 1) s.data with
  | Except.ok (v, rest) =>
      if skipWs rest = [] then Except.ok v
      else Except.error "Unexpected non-whitespace character after JSON"
  | Except.error e => Except.error e

/-- Wrapper of the external parser, from src/utils/result.ts (function
parseJson): on parse failure it returns PARSE_FAILED with the parser's
message as the details. -/
def parseJson (jsonString : String) : Except InspectorError Json :=
  match jsonParse jsonString with
  | Except.ok parsed => Except.ok parsed
  | Except.error e =>
      Except.error (inspectorError .PARSE_FAILED "Failed to parse JSON response" (some e))

/-- Observable events of one child-process run, in temporal order: stream
data chunks, the wall-clock timer expiring, the spawn-failure event, and the
close event carrying the exit code (null when killed by a signal). -/
inductive ProcEvent where
  | stdoutData (chunk : String)
  | stderrData (chunk : String)
  | timerFired
  | errorEvent (errMessage : String)
  | closeEvent (code : Option Int)
  deriving DecidableEq, Repr

instance : DecidableEq (Except InspectorError String) := fun a b =>
  match a, b with
  | .ok x, .ok y => decidable_of_iff (x = y) (by simp)
  | .error x, .error y => decidable_of_iff (x = y) (by simp)
  | .ok _, .error _ => isFalse (by simp)
  | .error _, .ok _ => isFalse (by simp)

/-- Mutable state of execCommand in src/utils/result.ts: the accumulated
stream texts, the timedOut flag, whether SIGTERM was issued, and the settled
promise value once resolve or reject has run. -/
structure ExecState where
  stdout : String
  stderr : String
  timedOut : Bool
  sigtermSent : Bool
  settled : Option (Except InspectorError String)
  deriving DecidableEq, Repr

/-- Initial state of a run: empty streams, no timeout, unsettled. -/
def ExecState.init : ExecState :=
  { stdout := "", stderr := "", timedOut := false, sigtermSent := false, settled := none }

/-- Rendering of the close event's exit code inside a template literal:
JavaScript prints null as the four-character text null. -/
def exitCodeString : Option Int → String
  | some n => toString n
  | none => "null"

/-- One event handler step of execCommand (src/utils/result.ts).  A settled
promise ignores later events: the close and error handlers clear the timer,
the streams have ended by the time close fires, and a second resolve or
reject is a no-op.  The timer callback sets timedOut and sends SIGTERM
without settling; the close handler checks timedOut first, then the exit
code; the error handler rejects with SPAWN_FAILED. -/
def execStep (timeout : Nat) (command : String) (st : ExecState) (ev : ProcEvent) :
    ExecState :=
  if st.settled.isSome then st
  else
    match ev with
    | .stdoutData chunk => { st with stdout := st.stdout ++ chunk }
    | .stderrData chunk => { st with stderr := st.stderr ++ chunk }
    | .timerFired => { st with timedOut := true, sigtermSent := true }
    | .errorEvent m =>
        { st with settled := some (Except.error
            (inspectorError .SPAWN_FAILED ("Failed to spawn command: " ++ command) (some m))) }
    | .closeEvent code =>
        { st with settled := some (
            if st.timedOut then
              Except.error (inspectorError .TIMEOUT
                ("Command timed out after " ++ toString timeout ++ "ms") (some st.stderr))
            else if code ≠ some 0 then
              Except.error (inspectorError .EXECUTION_FAILED
                ("Command exited with code " ++ exitCodeString code)
                (some (if st.stderr = "" then st.stdout else st.stderr)))
            else
              Except.ok st.stdout) }

/-- State reached by execCommand after a sequence of events. -/
def execRun (timeout : Nat) (command : String) (evs : List ProcEvent) : ExecState :=
  evs.foldl (execStep timeout command) ExecState.init

/-- Options record of execCommand (src/utils/result.ts). -/
structure ExecOptions where
  cwd : Option String := none
  env : Option (List (String × String)) := none
  timeoutMs : Option Nat := none
  shell : Option Bool := none

/-- Effective timeout of execCommand: the source line
const timeout = options?.timeoutMs ?? 30000. -/
def execTimeout (options : Option ExecOptions) : Nat :=
  (options.bind (fun o => o.timeoutMs)).getD 30000

/-- Outcome of execCommand (src/utils/result.ts) for a given run of process
events: the settled promise value, none while the child is still running.
The argument vector is handed to the operating system and does not influence
the wrapper's own control flow. -/
def execCommand (command : String) (args : List String) (options : Option ExecOptions)
    (evs : List ProcEvent) : Option (Except InspectorError String) :=
  (execRun (execTimeout options) command evs).settled

/-- Method identifiers of the Inspector CLI, from
src/services/inspector-cli.ts (type InspectorMethod). -/
inductive InspectorMethod where
  | toolsList
  | toolsCall
  | resourcesList
  | resourcesRead
  | promptsList
  | promptsGet
  deriving DecidableEq, Repr

/-- Method name string as passed to --method. -/
def methodString : InspectorMethod → String
  | .toolsList => "tools/list"
  | .toolsCall => "tools/call"
  | .resourcesList => "resources/list"
  | .resourcesRead => "resources/read"
  | .promptsList => "prompts/list"
  | .promptsGet => "prompts/get"

/-- Method-specific argument records as constructed at the service call
sites of src/services/inspector-cli.ts: a name/arguments pair for
tools/call, a uri for resources/read, a name/arguments pair for
prompts/get. -/
inductive MethodArgs where
  | toolCall (name : String) (toolArgs : List (String × Json))
  | resourceRead (uri : String)
  | promptGet (name : String) (promptArgs : List (String × String))

/-- Fields of the methodArgs record in insertion order, as enumerated by
Object.keys and JSON.stringify. -/
def methodArgsFields : MethodArgs → List (String × Json)
  | .toolCall name toolArgs => [("name", Json.str name), ("arguments", Json.obj toolArgs)]
  | .resourceRead uri => [("uri", Json.str uri)]
  | .promptGet name promptArgs =>
      [("name", Json.str name),
       ("arguments", Json.obj (promptArgs.map fun kv => (kv.1, Json.str kv.2)))]

/-- Tool-argument value encoding of the direct variant: a string passes
through, every other value is JSON-stringified
(typeof value === string ? value : JSON.stringify(value)). -/
def jsToolArgValue : Json → String
  | .str s => s
  | v => stringifyCompact v

/-- Transport flag pair emitted when the target specifies a transport. -/
def transportFlags (target : TargetServer) : List String :=
  match target.transport with
  | some t => ["--transport", transportString t]
  | none => []

/-- One -e KEY=VALUE pair per environment entry of the target. -/
def envFlags (target : TargetServer) : List String :=
  match target.env with
  | some env => env.flatMap fun kv => ["-e", kv.1 ++ "=" ++ kv.2]
  | none => []

/-- Argument builder of the direct-execution variant, from
src/services/inspector-cli.ts (function buildCliArgs).  The resolved
inspector entry-script path is module-level state in the source and is
passed here as a parameter.  The target is pushed immediately after the
entry path and the --cli flag, before every other flag; method-specific
arguments are encoded flag-per-argument.  The inner matches on the
MethodArgs shape mirror the source's type casts, which its call sites
always satisfy. -/
def buildCliArgs (inspectorPath : String) (method : InspectorMethod)
    (target : TargetServer) (methodArgs : Option MethodArgs) : List String :=
  [inspectorPath, "--cli"]
    ++ [target.target]
    ++ ["--method", methodString method]
    ++ transportFlags target
    ++ envFlags target
    ++ (match methodArgs with
        | none => []
        | some ma =>
            match method with
            | .toolsCall =>
                match ma with
                | .toolCall name toolArgs =>
                    ["--tool-name", name]
                      ++ toolArgs.flatMap (fun kv =>
                          ["--tool-arg", kv.1 ++ "=" ++ jsToolArgValue kv.2])
                | _ => []
            | .resourcesRead =>
                match ma with
                | .resourceRead uri => ["--uri", uri]
                | _ => []
            | .promptsGet =>
                match ma with
                | .promptGet name promptArgs =>
                    ["--prompt-name", name]
                      ++ promptArgs.flatMap (fun kv => ["--prompt-args", kv.1 ++ "=" ++ kv.2])
                | _ => []
            | _ => [])

/-- Argument builder of the package-runner variant, from the alternate
services/inspector-cli.ts (function buildCliArgs, npx form): all method
arguments become one --json blob and the target is appended last. -/
def buildCliArgsNpx (method : InspectorMethod) (target : TargetServer)
    (methodArgs : Option MethodArgs) : List String :=
  ["@modelcontextprotocol/inspector", "--cli"]
    ++ ["--method", methodString method]
    ++ transportFlags target
    ++ envFlags target
    ++ (match methodArgs with
        | none => []
        | some ma =>
            if (methodArgsFields ma).length > 0 then
              ["--json", stringifyCompact (Json.obj (methodArgsFields ma))]
            else [])
    ++ [target.target]

/-- Whitespace test of the JavaScript String.prototype.trim (an external
collaborator): the ASCII whitespace and line-terminator characters plus the
common Unicode ones. -/
def isJsWhitespace (c : Char) : Bool :=
  c = ' ' ∨ c = Char.ofNat 9 ∨ c = Char.ofNat 10 ∨ c = Char.ofNat 13 ∨
    c = Char.ofNat 11 ∨ c = Char.ofNat 12 ∨ c = Char.ofNat 160 ∨
    c = Char.ofNat 65279 ∨ c = Char.ofNat 8232 ∨ c = Char.ofNat 8233

/-- Modelled from the spec: String.prototype.trim of the JavaScript runtime,
removing whitespace from both ends. -/
def jsTrim (s : String) : String :=
  String.mk (((s.data.dropWhile isJsWhitespace).reverse.dropWhile isJsWhitespace).reverse)

/-- Stdout decoding step of runInspectorCli (src/services/inspector-cli.ts):
trim the output, substitute the empty-object text when the trimmed output is
empty, then parse. -/
def decodeStdout (output : String) : Except InspectorError Json :=
  let trimmedOutput := jsTrim output
  let jsonStr := if trimmedOutput = "" then "\x7b\x7d" else trimmedOutput
  parseJson jsonStr

/-- Composition of the invoker outcome with the decoder, the andThen chain of
runInspectorCli: an execCommand failure passes through untouched, a success
has its stdout decoded. -/
def inspectorPipeline (execResult : Except InspectorError String) :
    Except InspectorError Json :=
  match execResult with
  | Except.error e => Except.error e
  | Except.ok output => decodeStdout output

/-- Full outcome of runInspectorCli (src/services/inspector-cli.ts) for a
given run of process events: the CLI is invoked through node with the built
argument vector, shell false, and timeout timeoutMs ?? 60000. -/
def runInspectorCliOutcome (inspectorPath : String) (method : InspectorMethod)
    (target : TargetServer) (methodArgs : Option MethodArgs) (timeoutMs : Option Nat)
    (evs : List ProcEvent) : Option (Except InspectorError Json) :=
  match execCommand "node" (buildCliArgs inspectorPath method target methodArgs)
      (some { timeoutMs := some (timeoutMs.getD 60000), shell := some false }) evs with
  | none => none
  | some r => some (inspectorPipeline r)

/-- One entry of a response content array, from the handler bodies in
src/tools/inspector.ts. -/
structure ContentItem where
  type : String
  text : String
  deriving DecidableEq, Repr

/-- Response envelope returned by every tool handler.  The source sets
isError: true on failure and omits the field on success, modelled as an
Option. -/
structure ToolResponse where
  content : List ContentItem
  isError : Option Bool
  deriving DecidableEq, Repr

/-- Handler of mcpdev_inspector_list_tools (src/tools/inspector.ts): the
awaited service outcome is wrapped into the response envelope. -/
def listToolsHandler (execResult : Except InspectorError String) : ToolResponse :=
  match inspectorPipeline execResult with
  | Except.error e =>
      { content := [{ type := "text", text := formatError e }], isError := some true }
  | Except.ok v =>
      { content := [{ type := "text", text := stringify2 v }], isError := none }

/-- Handler of mcpdev_inspector_call_tool (src/tools/inspector.ts). -/
def callToolHandler (execResult : Except InspectorError String) : ToolResponse :=
  match inspectorPipeline execResult with
  | Except.error e =>
      { content := [{ type := "text", text := formatError e }], isError := some true }
  | Except.ok v =>
      { content := [{ type := "text", text := stringify2 v }], isError := none }

/-- Handler of mcpdev_inspector_list_resources (src/tools/inspector.ts). -/
def listResourcesHandler (execResult : Except InspectorError String) : ToolResponse :=
  match inspectorPipeline execResult with
  | Except.error e =>
      { content := [{ type := "text", text := formatError e }], isError := some true }
  | Except.ok v =>
      { content := [{ type := "text", text := stringify2 v }], isError := none }

/-- Handler of mcpdev_inspector_read_resource (src/tools/inspector.ts). -/
def readResourceHandler (execResult : Except InspectorError String) : ToolResponse :=
  match inspectorPipeline execResult with
  | Except.error e =>
      { content := [{ type := "text", text := formatError e }], isError := some true }
  | Except.ok v =>
      { content := [{ type := "text", text := stringify2 v }], isError := none }

/-- Handler of mcpdev_inspector_list_prompts (src/tools/inspector.ts). -/
def listPromptsHandler (execResult : Except InspectorError String) : ToolResponse :=
  match inspectorPipeline execResult with
  | Except.error e =>
      { content := [{ type := "text", text := formatError e }], isError := some true }
  | Except.ok v =>
      { content := [{ type := "text", text := stringify2 v }], isError := none }

/-- Handler of mcpdev_inspector_get_prompt (src/tools/inspector.ts). -/
def getPromptHandler (execResult : Except InspectorError String) : ToolResponse :=
  match inspectorPipeline execResult with
  | Except.error e =>
      { content := [{ type := "text", text := formatError e }], isError := some true }
  | Except.ok v =>
      { content := [{ type := "text", text := stringify2 v }], isError := none }

/-- Raw JSON-level value of the timeout_ms input before validation: absent,
a JavaScript number, or a value of another type. -/
inductive RawField where
  | absent
  | number (q : ℚ)
  | notANumber
  deriving DecidableEq

/-- Modelled from the spec: zod validation semantics of the timeout_ms field
of TargetServerSchema in src/tools/inspector.ts
(z.number().int().min(1000).max(300000).default(60000)); zod itself is an
external collaborator.  JavaScript numbers are modelled as rationals, with
integrality as denominator one. -/
def validateTimeoutMs : RawField → Except String Int
  | .absent => Except.ok 60000
  | .number q =>
      if q.den = 1 ∧ (1000 : ℚ) ≤ q ∧ q ≤ (300000 : ℚ) then Except.ok q.num
      else Except.error "Invalid timeout_ms: expected an integer between 1000 and 300000"
  | .notANumber => Except.error "Invalid timeout_ms: expected a number"

/-- Modelled from the spec: the registration flow of server.registerTool,
where the MCP SDK (an external collaborator) validates the input schema and
reports a schema-validation error without ever invoking the handler when
validation fails. -/
def dispatchTool (rawTimeout : RawField)
    (handler : Except InspectorError String → ToolResponse)
    (execResult : Except InspectorError String) : Except String ToolResponse :=
  match validateTimeoutMs rawTimeout with
  | Except.error m => Except.error m
  | Except.ok _ => Except.ok (handler execResult)

/-! Helper lemmas shared by the claim theorems. -/

/-- Appending one event to a run applies one more step. -/
theorem execRun_concat (t : Nat) (c : String) (evs : List ProcEvent) (ev : ProcEvent) :
    execRun t c (evs ++ [ev]) = execStep t c (execRun t c evs) ev := by
  simp [execRun, List.foldl_append]

/-- One step of the invoker preserves the property that any settled error has
one of the three kinds its handlers produce. -/
theorem execStep_error_kinds (t : Nat) (c : String) (st : ExecState) (ev : ProcEvent)
    (h : ∀ e, st.settled = some (Except.error e) →
      e.kind = .SPAWN_FAILED ∨ e.kind = .EXECUTION_FAILED ∨ e.kind = .TIMEOUT) :
    ∀ e, (execStep t c st ev).settled = some (Except.error e) →
      e.kind = .SPAWN_FAILED ∨ e.kind = .EXECUTION_FAILED ∨ e.kind = .TIMEOUT := by
  intro e he
  unfold execStep at he
  split at he
  · exact h e he
  · cases ev with
    | stdoutData chunk => exact h e he
    | stderrData chunk => exact h e he
    | timerFired => exact h e he
    | errorEvent m =>
        simp only [Option.some.injEq, Except.error.injEq] at he
        subst he
        left
        rfl
    | closeEvent code =>
        simp only [Option.some.injEq] at he
        split at he
        · rw [Except.error.injEq] at he
          subst he
          right; right
          rfl
        · split at he
          · rw [Except.error.injEq] at he
            subst he
            right; left
            rfl
          · exact absurd he (by simp)

/-- Every error a run of the invoker settles with has one of the three kinds
its handlers produce. -/
theorem execFold_error_kinds (t : Nat) (c : String) (evs : List ProcEvent) :
    ∀ st : ExecState,
      (∀ e, st.settled = some (Except.error e) →
        e.kind = .SPAWN_FAILED ∨ e.kind = .EXECUTION_FAILED ∨ e.kind = .TIMEOUT) →
      ∀ e, (evs.foldl (execStep t c) st).settled = some (Except.error e) →
        e.kind = .SPAWN_FAILED ∨ e.kind = .EXECUTION_FAILED ∨ e.kind = .TIMEOUT := by
  induction evs with
  | nil => intro st h; exact h
  | cons ev rest ih =>
      intro st h
      exact ih _ (execStep_error_kinds t c st ev h)

/-- Stdout data events accumulate their chunks onto the stdout buffer in
order, untouched. -/
theorem execFold_stdout (t : Nat) (c : String) (chunks : List String) :
    ∀ st : ExecState, st.settled = none →
      ((chunks.map ProcEvent.stdoutData).foldl (execStep t c) st).stdout =
        chunks.foldl (fun acc ch => acc ++ ch) st.stdout := by
  induction chunks with
  | nil => intro st _; rfl
  | cons ch rest ih =>
      intro st h
      have hstep : execStep t c st (.stdoutData ch) = { st with stdout := st.stdout ++ ch } := by
        simp [execStep, h]
      simp only [List.map_cons, List.foldl_cons, hstep]
      exact ih _ h

/-- Every formatted failure string begins with the text Error followed by an
opening bracket. -/
theorem formatError_prefix (e : InspectorError) :
    ∃ rest, formatError e = "Error [" ++ rest := by
  unfold formatError
  cases e.details with
  | none =>
      exact ⟨kindString e.kind ++ "]: " ++ e.message, by simp [String.append_assoc]⟩
  | some d =>
      by_cases hd : d = ""
      · simp only [hd, if_true]
        exact ⟨kindString e.kind ++ "]: " ++ e.message, by simp [String.append_assoc]⟩
      · simp only [hd, if_false]
        exact ⟨kindString e.kind ++ "]: " ++ e.message ++ "\nDetails: " ++ d,
          by simp [String.append_assoc]⟩

/-! Claim theorems. -/

/-- C8 counterexample: a failure whose details field is present but holds the
empty string is rendered without the Details line, because the source guards
it with a truthiness test; the claim's rendering with the line differs. -/
theorem c8_counterexample :
    formatError (inspectorError .TIMEOUT "m" (some "")) = "Error [TIMEOUT]: m" ∧
    "Error [TIMEOUT]: m" ≠ "Error [TIMEOUT]: m" ++ "\nDetails: " ++ "" := by
  exact ⟨rfl, by decide⟩

/-- C8 (amended): formatError is a pure function producing
Error [kind]: message, with the Details line appended exactly when the
details field is present and non-empty. -/
theorem c8_format_error (e : InspectorError) :
    (e.details = none →
      formatError e = "Error [" ++ kindString e.kind ++ "]: " ++ e.message) ∧
    (e.details = some "" →
      formatError e = "Error [" ++ kindString e.kind ++ "]: " ++ e.message) ∧
    (∀ d, e.details = some d → d ≠ "" →
      formatError e =
        "Error [" ++ kindString e.kind ++ "]: " ++ e.message ++ "\nDetails: " ++ d) := by
  refine ⟨?_, ?_, ?_⟩
  · intro h
    unfold formatError
    rw [h]
  · intro h
    unfold formatError
    rw [h]
    simp
  · intro d hd hne
    unfold formatError
    rw [hd]
    simp [hne]

/-- C8 witness: the amended theorem applied to a concrete failure with
non-empty details. -/
theorem c8_format_error_witness :
    formatError (inspectorError .TIMEOUT "m" (some "d")) = "Error [TIMEOUT]: m\nDetails: d" := by
  have h := (c8_format_error (inspectorError .TIMEOUT "m" (some "d"))).2.2 "d" rfl (by decide)
  exact h.trans (by decide)

/-- C2: the decoder trims the raw stdout; when the trimmed text is empty it
substitutes the two-character empty-object text and succeeds with the empty
object, and otherwise it hands the trimmed text to the JSON parser, passing
its value through on success and wrapping its message in a PARSE_FAILED
failure otherwise, as on the input not-json. -/
theorem c2_result_decoder (raw : String) :
    (jsTrim raw = "" →
      decodeStdout raw = parseJson "\x7b\x7d" ∧
      decodeStdout raw = Except.ok (Json.obj []) ∧
      String.length "\x7b\x7d" = 2) ∧
    (jsTrim raw ≠ "" →
      (∀ v, jsonParse (jsTrim raw) = Except.ok v → decodeStdout raw = Except.ok v) ∧
      (∀ m, jsonParse (jsTrim raw) = Except.error m →
        decodeStdout raw = Except.error
          (inspectorError .PARSE_FAILED "Failed to parse JSON response" (some m)))) ∧
    (∃ m, decodeStdout "not-json" =
      Except.error (inspectorError .PARSE_FAILED "Failed to parse JSON response" (some m))) := by
  refine ⟨?_, ?_, ?_⟩
  · intro h
    refine ⟨?_, ?_, rfl⟩
    · unfold decodeStdout
      rw [h]
      rfl
    · unfold decodeStdout
      rw [h]
      rfl
  · intro h
    constructor
    · intro v hv
      unfold decodeStdout parseJson
      simp only [if_neg h]
      rw [show Mcpdev.jsonParse (jsTrim raw) = Except.ok v from hv]
    · intro m hm
      unfold decodeStdout parseJson
      simp only [if_neg h]
      rw [show Mcpdev.jsonParse (jsTrim raw) = Except.error m from hm]
  · exact ⟨"Unexpected token n in JSON", rfl⟩

/-- C2 witness: the decoder applied to fully whitespace stdout succeeds with
the empty-object value. -/
theorem c2_result_decoder_witness :
    decodeStdout "  \n" = Except.ok (Json.obj []) :=
  ((c2_result_decoder "  \n").1 (by decide)).2.1

/-- C3 counterexample: after the timer fires the signal is recorded as sent
but no outcome is settled yet, and when stderr data arrives between the kill
and the close event the eventual Timeout details contain it, so the details
are the stderr at close time, not at kill time, and the outcome is reported
at the close event, not the moment the signal is issued. -/
theorem c3_counterexample :
    (execRun 50 "npx" [ProcEvent.timerFired]).sigtermSent = true ∧
    (execRun 50 "npx" [ProcEvent.timerFired]).settled = none ∧
    (execRun 50 "npx" [ProcEvent.timerFired]).stderr = "" ∧
    (execRun 50 "npx" [ProcEvent.timerFired, ProcEvent.stderrData "late",
        ProcEvent.closeEvent (some 0)]).settled =
      some (Except.error (inspectorError .TIMEOUT "Command timed out after 50ms"
        (some "late"))) ∧
    ("late" : String) ≠ "" := by
  refine ⟨rfl, rfl, rfl, by decide, by decide⟩

/-- C3 (amended): when the wall-clock timer fires while the call is still
unsettled, the process is sent SIGTERM and the timedOut flag is set, but no
outcome is reported yet; the Timeout failure, whose details is the stderr
accumulated by then, is settled only when the close event later fires. -/
theorem c3_timeout_signal_then_close (t : Nat) (c : String) (evs : List ProcEvent)
    (code : Option Int) :
    (execRun t c evs).settled = none →
    ((execRun t c (evs ++ [ProcEvent.timerFired])).sigtermSent = true ∧
     (execRun t c (evs ++ [ProcEvent.timerFired])).timedOut = true ∧
     (execRun t c (evs ++ [ProcEvent.timerFired])).settled = none) ∧
    ((execRun t c evs).timedOut = true →
      (execRun t c (evs ++ [ProcEvent.closeEvent code])).settled =
        some (Except.error (inspectorError .TIMEOUT
          ("Command timed out after " ++ toString t ++ "ms")
          (some (execRun t c evs).stderr)))) := by
  intro h
  constructor
  · rw [execRun_concat]
    simp [execStep, h]
  · intro htimed
    rw [execRun_concat]
    simp [execStep, h, htimed]

/-- C3 witness: the amended theorem at a concrete timed-out run that closes
with exit code 0. -/
theorem c3_timeout_signal_then_close_witness :
    (execRun 50 "npx" ([ProcEvent.timerFired] ++ [ProcEvent.closeEvent (some 0)])).settled =
      some (Except.error (inspectorError .TIMEOUT "Command timed out after 50ms" (some ""))) := by
  have h := (c3_timeout_signal_then_close 50 "npx" [ProcEvent.timerFired] (some 0) rfl).2 rfl
  exact h.trans (by decide)

/-- C4: a run that closes while unsettled and not timed out resolves with the
accumulated stdout verbatim on exit code 0, rejects with EXECUTION_FAILED and
details stderr-else-stdout on a nonzero or null exit code, a spawn failure
rejects with SPAWN_FAILED and the OS error text as details, and stdout data
chunks accumulate untouched. -/
theorem c4_exit_outcomes (t : Nat) (c : String) (evs : List ProcEvent) (code : Option Int)
    (m : String) :
    (execRun t c evs).settled = none →
    ((execRun t c evs).timedOut = false →
      (code = some 0 →
        (execRun t c (evs ++ [ProcEvent.closeEvent code])).settled =
          some (Except.ok (execRun t c evs).stdout)) ∧
      (code ≠ some 0 →
        (execRun t c (evs ++ [ProcEvent.closeEvent code])).settled =
          some (Except.error (inspectorError .EXECUTION_FAILED
            ("Command exited with code " ++ exitCodeString code)
            (some (if (execRun t c evs).stderr = "" then (execRun t c evs).stdout
                   else (execRun t c evs).stderr)))))) ∧
    ((execRun t c (evs ++ [ProcEvent.errorEvent m])).settled =
      some (Except.error (inspectorError .SPAWN_FAILED
        ("Failed to spawn command: " ++ c) (some m)))) ∧
    (∀ chunks : List String,
      (execRun t c (evs ++ chunks.map ProcEvent.stdoutData)).stdout =
        chunks.foldl (fun acc ch => acc ++ ch) (execRun t c evs).stdout) := by
  intro h
  refine ⟨?_, ?_, ?_⟩
  · intro htimed
    constructor
    · intro hc
      subst hc
      rw [execRun_concat]
      simp [execStep, h, htimed]
    · intro hc
      rw [execRun_concat]
      simp [execStep, h, htimed, hc]
  · rw [execRun_concat]
    simp [execStep, h]
  · intro chunks
    unfold execRun
    rw [List.foldl_append]
    exact execFold_stdout t c chunks _ h

/-- C4 witness: a run that emits stdout with surrounding whitespace and exits
cleanly resolves with that text verbatim. -/
theorem c4_exit_outcomes_witness :
    (execRun 30000 "npx" ([ProcEvent.stdoutData " out \n"] ++ [ProcEvent.closeEvent (some 0)])).settled =
      some (Except.ok " out \n") := by
  have h := ((c4_exit_outcomes 30000 "npx" [ProcEvent.stdoutData " out \n"] (some 0) "x"
    rfl).1 rfl).1 rfl
  exact h.trans (by decide)

/-- C10: once the timed-out flag is set on an unsettled run, a close event
settles a TIMEOUT failure no matter what exit code the process reports, even
code 0; neither the success branch nor the EXECUTION_FAILED branch can be
reached. -/
theorem c10_timeout_wins (t : Nat) (c : String) (evs : List ProcEvent) (code : Option Int) :
    (execRun t c evs).settled = none →
    (execRun t c evs).timedOut = true →
    (∃ e, (execRun t c (evs ++ [ProcEvent.closeEvent code])).settled =
        some (Except.error e) ∧ e.kind = .TIMEOUT) ∧
    (∀ s, (execRun t c (evs ++ [ProcEvent.closeEvent code])).settled ≠
        some (Except.ok s)) ∧
    (∀ e, (execRun t c (evs ++ [ProcEvent.closeEvent code])).settled =
        some (Except.error e) → e.kind ≠ .EXECUTION_FAILED) := by
  intro h htimed
  have hstep : (execRun t c (evs ++ [ProcEvent.closeEvent code])).settled =
      some (Except.error (inspectorError .TIMEOUT
        ("Command timed out after " ++ toString t ++ "ms")
        (some (execRun t c evs).stderr))) := by
    rw [execRun_concat]
    simp [execStep, h, htimed]
  refine ⟨⟨_, hstep, rfl⟩, ?_, ?_⟩
  · intro s hs
    rw [hstep] at hs
    exact absurd hs (by simp)
  · intro e he
    rw [hstep] at he
    simp only [Option.some.injEq, Except.error.injEq] at he
    subst he
    exact fun hk => InspectorErrorKind.noConfusion hk

/-- C10 witness: a timed-out run closing with exit code 0 still settles a
TIMEOUT failure. -/
theorem c10_timeout_wins_witness :
    ∃ e, (execRun 50 "npx" ([ProcEvent.timerFired] ++ [ProcEvent.closeEvent (some 0)])).settled =
      some (Except.error e) ∧ e.kind = InspectorErrorKind.TIMEOUT :=
  (c10_timeout_wins 50 "npx" [ProcEvent.timerFired] (some 0) rfl rfl).1

/-- C9: every typed failure the pipeline produces has kind SPAWN_FAILED,
EXECUTION_FAILED, TIMEOUT or PARSE_FAILED; the reserved kinds
INVALID_RESPONSE and CONNECTION_FAILED are never produced, neither by the
invoker nor by the decoder nor by their composition. -/
theorem c9_closed_error_kinds (t : Nat) (c : String) (evs : List ProcEvent) :
    (∀ e, (execRun t c evs).settled = some (Except.error e) →
      e.kind = .SPAWN_FAILED ∨ e.kind = .EXECUTION_FAILED ∨ e.kind = .TIMEOUT) ∧
    (∀ raw e, decodeStdout raw = Except.error e → e.kind = .PARSE_FAILED) ∧
    (∀ r e, (execRun t c evs).settled = some r →
      inspectorPipeline r = Except.error e →
      e.kind ≠ .INVALID_RESPONSE ∧ e.kind ≠ .CONNECTION_FAILED) := by
  have hparse : ∀ s e2, parseJson s = Except.error e2 → e2.kind = .PARSE_FAILED := by
    intro s e2 hs
    unfold parseJson at hs
    split at hs
    · exact absurd hs (by simp)
    · simp only [Except.error.injEq] at hs
      subst hs
      rfl
  have hdecode : ∀ raw e, decodeStdout raw = Except.error e → e.kind = .PARSE_FAILED := by
    intro raw e he
    exact hparse _ e he
  have hexec : ∀ e, (execRun t c evs).settled = some (Except.error e) →
      e.kind = .SPAWN_FAILED ∨ e.kind = .EXECUTION_FAILED ∨ e.kind = .TIMEOUT :=
    execFold_error_kinds t c evs ExecState.init (by intro e he; exact absurd he (by simp [ExecState.init]))
  refine ⟨hexec, hdecode, ?_⟩
  intro r e hr hp
  cases r with
  | error e' =>
      have : e' = e := by
        simpa [inspectorPipeline] using hp
      subst this
      rcases hexec e' hr with h1 | h1 | h1 <;>
        exact ⟨by rw [h1]; exact fun hk => InspectorErrorKind.noConfusion hk,
               by rw [h1]; exact fun hk => InspectorErrorKind.noConfusion hk⟩
  | ok output =>
      have : decodeStdout output = Except.error e := by
        simpa [inspectorPipeline] using hp
      have hk := hdecode output e this
      exact ⟨by rw [hk]; exact fun h2 => InspectorErrorKind.noConfusion h2,
             by rw [hk]; exact fun h2 => InspectorErrorKind.noConfusion h2⟩

/-- C9 witness: the closed-kind theorem applied to the decoder failure on the
input not-json. -/
theorem c9_closed_error_kinds_witness :
    (inspectorError .PARSE_FAILED "Failed to parse JSON response"
      (some "Unexpected token n in JSON")).kind = InspectorErrorKind.PARSE_FAILED :=
  (c9_closed_error_kinds 0 "" []).2.1 "not-json" _ rfl

/-- C5: in the flag-per-argument variant the target is the very first
positional argument, right after the resolved entry path and the --cli flag;
a tools/call request then carries the tool name after --tool-name and one
--tool-arg key=value pair per argument entry in that relative order, with a
non-string value JSON-stringified first, as on the concrete get_weather
example. -/
theorem c5_flag_per_argument_tool_call (inspectorPath : String) (target : TargetServer)
    (name : String) (toolArgs : List (String × Json)) :
    (buildCliArgs inspectorPath .toolsCall target (some (.toolCall name toolArgs)) =
      inspectorPath :: "--cli" :: target.target ::
        (["--method", "tools/call"] ++ transportFlags target ++ envFlags target
          ++ "--tool-name" :: name ::
            toolArgs.flatMap (fun kv =>
              ["--tool-arg", kv.1 ++ "=" ++
                (match kv.2 with | Json.str s => s | v => stringifyCompact v)]))) ∧
    (buildCliArgs "cli.js" .toolsCall
        { target := "node server.js", transport := none, env := none }
        (some (.toolCall "get_weather" [("city", Json.str "Tokyo")])) =
      ["cli.js", "--cli", "node server.js", "--method", "tools/call",
       "--tool-name", "get_weather", "--tool-arg", "city=Tokyo"]) := by
  constructor
  · have harg : ∀ v : Json, jsToolArgValue v =
        (match v with | Json.str s => s | v => stringifyCompact v) := by
      intro v
      cases v <;> rfl
    simp [buildCliArgs, harg, methodString]
  · decide

/-- C6: in the generic JSON variant all method-specific arguments are
serialized as one --json blob and the target string is appended as the very
last element, after the package entry marker, the --cli flag, the method,
any transport flag, any -e pairs and the blob. -/
theorem c6_json_variant_target_last (method : InspectorMethod) (target : TargetServer)
    (ma : MethodArgs) :
    (buildCliArgsNpx method target (some ma) =
      ["@modelcontextprotocol/inspector", "--cli", "--method", methodString method]
        ++ transportFlags target ++ envFlags target
        ++ ["--json", stringifyCompact (Json.obj (methodArgsFields ma))]
        ++ [target.target]) ∧
    (∀ margs : Option MethodArgs,
      (buildCliArgsNpx method target margs).getLast? = some target.target) := by
  constructor
  · have hlen : (methodArgsFields ma).length > 0 := by
      cases ma <;> simp [methodArgsFields]
    simp [buildCliArgsNpx, hlen]
  · intro margs
    unfold buildCliArgsNpx
    exact List.getLast?_concat _

/-- C7: the tool-layer timeout_ms field defaults to 60000 when absent, any
accepted value is an integer between 1000 and 300000, any non-integral,
out-of-range or wrong-typed value is rejected with a schema-validation error
before the handler and hence any subprocess is reached, and the generic
invoker defaults to 30000 ms while the service layer passes
timeoutMs ?? 60000 down to it. -/
theorem c7_timeout_validation :
    (validateTimeoutMs .absent = Except.ok 60000) ∧
    (∀ q n, validateTimeoutMs (.number q) = Except.ok n →
      (n : ℚ) = q ∧ 1000 ≤ n ∧ n ≤ 300000) ∧
    (∀ q, (q.den ≠ 1 ∨ q < 1000 ∨ 300000 < q) →
      ∃ m, validateTimeoutMs (.number q) = Except.error m) ∧
    (∃ m, validateTimeoutMs .notANumber = Except.error m) ∧
    (∀ raw m (handler : Except InspectorError String → ToolResponse) r₁ r₂,
      validateTimeoutMs raw = Except.error m →
      dispatchTool raw handler r₁ = Except.error m ∧
      dispatchTool raw handler r₁ = dispatchTool raw handler r₂) ∧
    (execTimeout none = 30000) ∧
    (∀ timeoutMs : Option Nat,
      execTimeout (some { timeoutMs := some (timeoutMs.getD 60000), shell := some false }) =
        timeoutMs.getD 60000) := by
  refine ⟨rfl, ?_, ?_, ⟨_, rfl⟩, ?_, rfl, fun _ => rfl⟩
  · intro q n h
    simp only [validateTimeoutMs] at h
    split at h
    · rename_i hcond
      obtain ⟨hden, hlo, hhi⟩ := hcond
      simp only [Except.ok.injEq] at h
      subst h
      have hq : (q.num : ℚ) = q := Rat.coe_int_num_of_den_eq_one hden
      refine ⟨hq, ?_, ?_⟩
      · exact_mod_cast hq ▸ hlo
      · exact_mod_cast hq ▸ hhi
    · exact absurd h (by simp)
  · intro q hbad
    simp only [validateTimeoutMs]
    split
    · rename_i hcond
      obtain ⟨hden, hlo, hhi⟩ := hcond
      rcases hbad with hb | hb | hb
      · exact absurd hden hb
      · exact absurd hlo (not_le.mpr hb)
      · exact absurd hhi (not_le.mpr hb)
    · exact ⟨_, rfl⟩
  · intro raw m handler r₁ r₂ h
    unfold dispatchTool
    rw [h]
    exact ⟨rfl, rfl⟩

/-- C7 witness: the validation theorem applied to the out-of-range value 500,
which is rejected. -/
theorem c7_timeout_validation_witness :
    ∃ m, validateTimeoutMs (RawField.number 500) = Except.error m :=
  c7_timeout_validation.2.2.1 500 (Or.inr (Or.inl (by norm_num)))

/-- C1: each of the six registered tool handlers wraps the pipeline outcome
into a structurally valid single-text-payload response: a typed failure
becomes an isError response whose payload is the formatted failure string and
therefore begins with Error followed by an opening bracket, and a success
becomes a non-error response whose payload is the two-space pretty-printed
JSON of the decoded result; the handlers are total, so no failure escapes. -/
theorem c1_dispatcher_envelope (r : Except InspectorError String) :
    ∀ resp ∈ [listToolsHandler r, callToolHandler r, listResourcesHandler r,
      readResourceHandler r, listPromptsHandler r, getPromptHandler r],
      (∃ payload, resp.content = [{ type := "text", text := payload }]) ∧
      (∀ e, inspectorPipeline r = Except.error e →
        resp.isError = some true ∧
        resp.content = [{ type := "text", text := formatError e }] ∧
        ∃ rest, formatError e = "Error [" ++ rest) ∧
      (∀ v, inspectorPipeline r = Except.ok v →
        resp.isError = none ∧
        resp.content = [{ type := "text", text := stringify2 v }]) := by
  intro resp hresp
  have hsame : resp = listToolsHandler r := by
    simp only [List.mem_cons, List.mem_singleton, List.not_mem_nil, or_false] at hresp
    rcases hresp with h | h | h | h | h | h <;> exact h
  subst hsame
  unfold listToolsHandler
  cases hp : inspectorPipeline r with
  | error e =>
      refine ⟨⟨formatError e, rfl⟩, ?_, ?_⟩
      · intro e' he'
        simp only [Except.error.injEq] at he'
        subst he'
        exact ⟨rfl, rfl, formatError_prefix e⟩
      · intro v hv
        exact absurd hv (by simp)
  | ok v =>
      refine ⟨⟨stringify2 v, rfl⟩, ?_, ?_⟩
      · intro e' he'
        exact absurd he' (by simp)
      · intro v' hv'
        simp only [Except.ok.injEq] at hv'
        subst hv'
        exact ⟨rfl, rfl⟩

/-- C1 witness: the envelope theorem applied to the first handler on a
concrete pipeline failure. -/
theorem c1_dispatcher_envelope_witness :
    (listToolsHandler (Except.error (inspectorError .TIMEOUT "m" none))).isError =
      some true := by
  have h := (c1_dispatcher_envelope (Except.error (inspectorError .TIMEOUT "m" none))
    (listToolsHandler (Except.error (inspectorError .TIMEOUT "m" none)))
    (by simp)).2.1 (inspectorError .TIMEOUT "m" none) rfl
  exact h.1

end Mcpdev
